import Mathlib

/-!
Verification of the text-layout-inference core of `src/electron/ocr-service.py`:
the page-number detector `detect_page_number` and the paragraph grouper
`create_formatting_blocks`, shallowly embedded over lists, with rational
coordinates standing for the numeric y-coordinates and Python's exception on a
malformed bounding box modelled by `Except`.
-/

/-- Whitespace characters removed by Python `str.strip` (the ASCII ones:
space, tab, newline, carriage return, vertical tab, form feed). -/
def isPySpace (c : Char) : Bool :=
  c == ' ' || c == '\t' || c == '\n' || c == '\r' || c == '\x0b' || c == '\x0c'

/-- Python `str.strip` on the character list: drop whitespace from both ends. -/
def pyStrip (l : List Char) : List Char :=
  ((l.dropWhile isPySpace).reverse.dropWhile isPySpace).reverse

/-- Python `str.strip` on strings (`line["text"].strip()` in the source). -/
def pyStripStr (s : String) : String :=
  ⟨pyStrip s.data⟩

/-- The character class `[0-9]` of the source's first regex: ASCII digits. -/
def isDigit09 (c : Char) : Bool :=
  '0' ≤ c && c ≤ '9'

/-- The character class `[IVXLCDM]` under `re.IGNORECASE`: Roman-numeral
letters, either case. -/
def isRomanChar (c : Char) : Bool :=
  c == 'I' || c == 'V' || c == 'X' || c == 'L' || c == 'C' || c == 'D' ||
  c == 'M' || c == 'i' || c == 'v' || c == 'x' || c == 'l' || c == 'c' ||
  c == 'd' || c == 'm'

/-- Python `re.match(r'^[cls]+$', s)`: the pattern is anchored at the start by
`re.match`, and `$` matches at the end of the string or just before a newline
that ends the string.  So `s` matches iff it is one-or-more `cls` characters,
optionally followed by a single final newline. -/
def reFullmatchDollar (cls : Char → Bool) (l : List Char) : Bool :=
  (!l.isEmpty && l.all cls) ||
  (match l.getLast? with
   | some c => c == '\n' && (!l.dropLast.isEmpty && l.dropLast.all cls)
   | none => false)

/-- `re.match(r'^[0-9]+$', text)` from the source. -/
def matchDigits (s : String) : Bool :=
  reFullmatchDollar isDigit09 s.data

/-- `re.match(r'^[IVXLCDM]+$', text, re.IGNORECASE)` from the source. -/
def matchRoman (s : String) : Bool :=
  reFullmatchDollar isRomanChar s.data

/-- Python `str.upper` (`text.upper()` in the source); the texts it is applied
to consist of ASCII Roman-numeral letters, where it agrees with `Char.toUpper`. -/
def pyUpper (s : String) : String :=
  ⟨s.data.map Char.toUpper⟩

/-- One recognized OCR line as the source consumes it: its `text`, its
`confidence`, and its bounding box as a list of planar points.  Python floats
are modelled by rationals. -/
structure RecognizedLine where
  text : String
  confidence : ℚ
  bbox : List (ℚ × ℚ)
deriving Repr, DecidableEq

/-- The candidate window of `detect_page_number`: `lines[:3]` when
`len(lines) > 0`, followed by `lines[-3:]` when `len(lines) > 3`. -/
def check_lines (lines : List RecognizedLine) : List RecognizedLine :=
  (if 0 < lines.length then lines.take 3 else []) ++
  (if 3 < lines.length then lines.drop (lines.length - 3) else [])

/-- The `for line in check_lines` loop of `detect_page_number`: strip the text,
return it on a digit match, return it upper-cased on a Roman-numeral match,
otherwise continue; `None` when the loop falls through. -/
def detectLoop : List RecognizedLine → Option String
  | [] => none
  | l :: rest =>
    let text := pyStripStr l.text
    if matchDigits text then some text
    else if matchRoman text then some (pyUpper text)
    else detectLoop rest

/-- `detect_page_number` from the source. -/
def detect_page_number (lines : List RecognizedLine) : Option String :=
  detectLoop (check_lines lines)

/-- One output block of `create_formatting_blocks`: the dict
`{"type": "paragraph", "lines": [...]}`. -/
structure ParagraphBlock where
  type : String
  lines : List String
deriving Repr, DecidableEq

/-- `(bbox[0][1] + bbox[1][1]) / 2` from the source; `none` when the bounding
box has fewer than 2 points, where Python raises `IndexError`. -/
def yCoord (bbox : List (ℚ × ℚ)) : Option ℚ :=
  match bbox with
  | p0 :: p1 :: _ => some ((p0.2 + p1.2) / 2)
  | _ => none

/-- The message of the `IndexError` Python raises on an out-of-range list
index; it names no line and no index. -/
def indexErrorMsg : String := "list index out of range"

/-- The `for line in lines` loop of `create_formatting_blocks`, with the
accumulated `blocks`, the `current_paragraph` accumulator and `prev_y` made
explicit, including the final flush of a non-empty accumulator. -/
def groupLoop : List RecognizedLine → List ParagraphBlock → List String →
    Option ℚ → Except String (List ParagraphBlock)
  | [], blocks, cur, _ =>
    if cur.isEmpty then .ok blocks else .ok (blocks ++ [⟨"paragraph", cur⟩])
  | l :: rest, blocks, cur, prevY =>
    match yCoord l.bbox with
    | none => .error indexErrorMsg
    | some y =>
      match prevY with
      | some py =>
        if |y - py| > 30 ∧ cur ≠ [] then
          groupLoop rest (blocks ++ [⟨"paragraph", cur⟩]) [l.text] (some y)
        else
          groupLoop rest blocks (cur ++ [l.text]) (some y)
      | none => groupLoop rest blocks (cur ++ [l.text]) (some y)

/-- `create_formatting_blocks` from the source: `[]` on empty input, otherwise
the grouping loop started with empty accumulators and undefined `prev_y`. -/
def create_formatting_blocks (lines : List RecognizedLine) :
    Except String (List ParagraphBlock) :=
  if lines.isEmpty then .ok [] else groupLoop lines [] [] none

/-- Modelled from the spec: the candidate window, "the first 3 lines (if at
least 1 exists) followed by the last 3 lines (only if total length exceeds
3)". -/
def specWindow (lines : List RecognizedLine) : List RecognizedLine :=
  (if lines ≠ [] then lines.take 3 else []) ++
  (if 3 < lines.length then lines.drop (lines.length - 3) else [])

/-- Modelled from the spec: classify one trimmed candidate text — entirely
one-or-more ASCII digits returns it unchanged, entirely one-or-more
Roman-numeral letters (either case) returns it upper-cased, anything else is
no match. -/
def specClassify (t : String) : Option String :=
  if t.data ≠ [] ∧ t.data.all isDigit09 then some t
  else if t.data ≠ [] ∧ t.data.all isRomanChar then some (pyUpper t)
  else none

/-- Modelled from the spec: the detector returns the result for the first
candidate of the window whose trimmed text matches either pattern, absent
otherwise. -/
def detect_spec (lines : List RecognizedLine) : Option String :=
  (specWindow lines).findSome? fun l => specClassify (pyStripStr l.text)

/-- The detector loop restricted to the candidate texts; used to show that the
detector reads nothing but the `text` fields. -/
def detectTextsLoop : List String → Option String
  | [] => none
  | s :: rest =>
    let text := pyStripStr s
    if matchDigits text then some text
    else if matchRoman text then some (pyUpper text)
    else detectTextsLoop rest

/-- The candidate window as a function of the text list alone. -/
def windowTexts (ts : List String) : List String :=
  (if 0 < ts.length then ts.take 3 else []) ++
  (if 3 < ts.length then ts.drop (ts.length - 3) else [])

/-- Reference grouping of (text, vertical position) pairs, following the
spec's rule: accumulate consecutive texts, cutting exactly where the absolute
difference of consecutive vertical positions strictly exceeds 30. -/
def gapSplitGo : List (String × ℚ) → ℚ → List String → List (List String)
  | [], _, acc => [acc]
  | (t, y) :: rest, py, acc =>
    if |y - py| > 30 then acc :: gapSplitGo rest y [t]
    else gapSplitGo rest y (acc ++ [t])

/-- Reference grouping, top level: empty input gives no groups, otherwise the
first text opens the first group. -/
def gapSplit : List (String × ℚ) → List (List String)
  | [] => []
  | (t, y) :: rest => gapSplitGo rest y [t]

/-- The vertical positions of all lines, `none` as soon as one bounding box
has fewer than 2 points. -/
def linesYs : List RecognizedLine → Option (List ℚ)
  | [] => some []
  | l :: rest =>
    match yCoord l.bbox, linesYs rest with
    | some y, some ys => some (y :: ys)
    | _, _ => none

/-- A recognized line with the given text and a well-formed horizontal
bounding box at height `y` (both top corners have y-coordinate `y`, so the
computed vertical position is `y`). -/
def mkLine (t : String) (y : ℚ) : RecognizedLine :=
  ⟨t, 1, [(0, y), (10, y), (10, y + 12), (0, y + 12)]⟩

/-- The spec's five-line example, vertical positions 0, 5, 10, 100, 105. -/
def fiveLines : List RecognizedLine :=
  [mkLine "a" 0, mkLine "b" 5, mkLine "c" 10, mkLine "d" 100, mkLine "e" 105]

/-- The spec's twelve-line example: first line "iv", last line "12", generic
prose in between. -/
def twelveLines : List RecognizedLine :=
  [mkLine "iv" 0, mkLine "Chapter One" 40, mkLine "It was a dark" 80,
   mkLine "and stormy night" 120, mkLine "the rain fell" 160,
   mkLine "in torrents" 200, mkLine "except at" 240,
   mkLine "occasional intervals" 280, mkLine "when it was" 320,
   mkLine "checked by" 360, mkLine "a violent gust" 400, mkLine "12" 440]

/-- A line whose bounding box has only one point: a precondition violation
for the grouper. -/
def badBoxLine : RecognizedLine := ⟨"broken", 1, [(0, 0)]⟩

theorem dropWhile_head?_not {α : Type} {p : α → Bool} :
    ∀ (l : List α) (c : α), (l.dropWhile p).head? = some c → p c = false := by
  intro l
  induction l with
  | nil => intro c h; simp [List.dropWhile] at h
  | cons a t ih =>
    intro c h
    rw [List.dropWhile] at h
    cases hpa : p a with
    | true => rw [hpa] at h; exact ih c h
    | false => rw [hpa] at h; simp at h; subst h; exact hpa

theorem pyStrip_getLast?_not_space (l : List Char) (c : Char)
    (h : (pyStrip l).getLast? = some c) : isPySpace c = false := by
  unfold pyStrip at h
  rw [List.getLast?_reverse] at h
  exact dropWhile_head?_not _ _ h

theorem reFullmatchDollar_eq_of_no_newline (cls : Char → Bool) (l : List Char)
    (h : ∀ c, l.getLast? = some c → c ≠ '\n') :
    reFullmatchDollar cls l = (!l.isEmpty && l.all cls) := by
  unfold reFullmatchDollar
  cases hl : l.getLast? with
  | none => simp
  | some c =>
    have hc := h c hl
    simp [hc]

theorem matchDigits_pyStripStr (s : String) :
    matchDigits (pyStripStr s) =
      (!(pyStrip s.data).isEmpty && (pyStrip s.data).all isDigit09) := by
  refine reFullmatchDollar_eq_of_no_newline _ _ fun c hc heq => ?_
  have hsp := pyStrip_getLast?_not_space s.data c hc
  subst heq
  simp [isPySpace] at hsp

theorem matchRoman_pyStripStr (s : String) :
    matchRoman (pyStripStr s) =
      (!(pyStrip s.data).isEmpty && (pyStrip s.data).all isRomanChar) := by
  refine reFullmatchDollar_eq_of_no_newline _ _ fun c hc heq => ?_
  have hsp := pyStrip_getLast?_not_space s.data c hc
  subst heq
  simp [isPySpace] at hsp

theorem specClassify_eq (s : String) :
    specClassify (pyStripStr s) =
      (if matchDigits (pyStripStr s) then some (pyStripStr s)
       else if matchRoman (pyStripStr s) then some (pyUpper (pyStripStr s))
       else none) := by
  rw [specClassify, matchDigits_pyStripStr, matchRoman_pyStripStr]
  have hdata : (pyStripStr s).data = pyStrip s.data := rfl
  rw [hdata]
  by_cases h1 : pyStrip s.data = [] <;>
    by_cases h2 : (pyStrip s.data).all isDigit09 <;>
      by_cases h3 : (pyStrip s.data).all isRomanChar <;>
        simp [h1, h2, h3]

theorem detectLoop_eq_findSome (ls : List RecognizedLine) :
    detectLoop ls = ls.findSome? fun l => specClassify (pyStripStr l.text) := by
  induction ls with
  | nil => rfl
  | cons l rest ih =>
    rw [detectLoop, List.findSome?_cons, specClassify_eq]
    cases h1 : matchDigits (pyStripStr l.text) with
    | true => simp [h1]
    | false =>
      cases h2 : matchRoman (pyStripStr l.text) with
      | true => simp [h1, h2]
      | false => simp [h1, h2, ih]

theorem yCoord_eq_none_iff (b : List (ℚ × ℚ)) : yCoord b = none ↔ b.length < 2 := by
  match b with
  | [] => simp [yCoord]
  | [p] => simp [yCoord]
  | p0 :: p1 :: rest => simp [yCoord]

theorem yCoord_isSome_of (b : List (ℚ × ℚ)) (h : 2 ≤ b.length) :
    ∃ y, yCoord b = some y := by
  cases hy : yCoord b with
  | none => rw [yCoord_eq_none_iff] at hy; omega
  | some y => exact ⟨y, rfl⟩

theorem groupLoop_ok_flatten :
    ∀ (lines : List RecognizedLine) (blocks : List ParagraphBlock)
      (cur : List String) (py : Option ℚ),
      (∀ l ∈ lines, 2 ≤ l.bbox.length) →
      ∃ bs, groupLoop lines blocks cur py = .ok bs ∧
        (bs.map ParagraphBlock.lines).flatten =
          (blocks.map ParagraphBlock.lines).flatten ++ cur ++
            lines.map RecognizedLine.text := by
  intro lines
  induction lines with
  | nil =>
    intro blocks cur py _
    by_cases hc : cur.isEmpty
    · refine ⟨blocks, by simp [groupLoop, hc], ?_⟩
      have hnil : cur = [] := by simpa using hc
      simp [hnil]
    · exact ⟨blocks ++ [⟨"paragraph", cur⟩], by simp [groupLoop, hc], by simp⟩
  | cons l rest ih =>
    intro blocks cur py h
    have hl : 2 ≤ l.bbox.length := h l (by simp)
    obtain ⟨y, hy⟩ := yCoord_isSome_of _ hl
    have hrest : ∀ x ∈ rest, 2 ≤ x.bbox.length := fun x hx => h x (by simp [hx])
    cases py with
    | none =>
      obtain ⟨bs, hbs, hfl⟩ := ih blocks (cur ++ [l.text]) (some y) hrest
      refine ⟨bs, ?_, ?_⟩
      · simp only [groupLoop, hy]; exact hbs
      · simp [hfl, List.append_assoc]
    | some py' =>
      by_cases hcond : |y - py'| > 30 ∧ cur ≠ []
      · obtain ⟨bs, hbs, hfl⟩ :=
          ih (blocks ++ [⟨"paragraph", cur⟩]) [l.text] (some y) hrest
        refine ⟨bs, ?_, ?_⟩
        · simp only [groupLoop, hy, if_pos hcond]; exact hbs
        · simp [hfl, List.append_assoc]
      · obtain ⟨bs, hbs, hfl⟩ := ih blocks (cur ++ [l.text]) (some y) hrest
        refine ⟨bs, ?_, ?_⟩
        · simp only [groupLoop, hy, if_neg hcond]; exact hbs
        · simp [hfl, List.append_assoc]

theorem groupLoop_error :
    ∀ (lines : List RecognizedLine) (blocks : List ParagraphBlock)
      (cur : List String) (py : Option ℚ),
      (∃ l ∈ lines, l.bbox.length < 2) →
      groupLoop lines blocks cur py = .error indexErrorMsg := by
  intro lines
  induction lines with
  | nil => intro _ _ _ h; simp at h
  | cons l rest ih =>
    intro blocks cur py h
    cases hy : yCoord l.bbox with
    | none =>
      cases py with
      | none => simp only [groupLoop, hy]
      | some py' => simp only [groupLoop, hy]
    | some y =>
      have hbad : ∃ x ∈ rest, x.bbox.length < 2 := by
        obtain ⟨x, hx, hxl⟩ := h
        rcases List.mem_cons.mp hx with rfl | hx'
        · exfalso
          have : yCoord x.bbox = none := (yCoord_eq_none_iff _).mpr hxl
          rw [this] at hy; exact Option.noConfusion hy
        · exact ⟨x, hx', hxl⟩
      cases py with
      | none => simp only [groupLoop, hy]; exact ih _ _ _ hbad
      | some py' =>
        by_cases hcond : |y - py'| > 30 ∧ cur ≠ []
        · simp only [groupLoop, hy, if_pos hcond]; exact ih _ _ _ hbad
        · simp only [groupLoop, hy, if_neg hcond]; exact ih _ _ _ hbad

theorem groupLoop_blocks_inv :
    ∀ (lines : List RecognizedLine) (blocks : List ParagraphBlock)
      (cur : List String) (py : Option ℚ) (bs : List ParagraphBlock),
      groupLoop lines blocks cur py = .ok bs →
      (∀ b ∈ blocks, b.type = "paragraph" ∧ b.lines ≠ []) →
      ∀ b ∈ bs, b.type = "paragraph" ∧ b.lines ≠ [] := by
  intro lines
  induction lines with
  | nil =>
    intro blocks cur py bs hbs hinv
    rw [groupLoop] at hbs
    by_cases hc : cur.isEmpty
    · rw [if_pos hc] at hbs
      cases hbs
      exact hinv
    · rw [if_neg hc] at hbs
      cases hbs
      intro b hb
      rcases List.mem_append.mp hb with h1 | h2
      · exact hinv b h1
      · have hb2 : b = ⟨"paragraph", cur⟩ := by simpa using h2
        subst hb2
        exact ⟨rfl, by simpa using hc⟩
  | cons l rest ih =>
    intro blocks cur py bs hbs hinv
    cases hy : yCoord l.bbox with
    | none =>
      cases py <;> simp only [groupLoop, hy] at hbs <;>
        exact Except.noConfusion hbs
    | some y =>
      cases py with
      | none =>
        simp only [groupLoop, hy] at hbs
        exact ih _ _ _ _ hbs hinv
      | some py' =>
        by_cases hcond : |y - py'| > 30 ∧ cur ≠ []
        · simp only [groupLoop, hy, if_pos hcond] at hbs
          refine ih _ _ _ _ hbs ?_
          intro b hb
          rcases List.mem_append.mp hb with h1 | h2
          · exact hinv b h1
          · have hb2 : b = ⟨"paragraph", cur⟩ := by simpa using h2
            subst hb2
            exact ⟨rfl, hcond.2⟩
        · simp only [groupLoop, hy, if_neg hcond] at hbs
          exact ih _ _ _ _ hbs hinv

theorem groupLoop_eq_gapSplitGo :
    ∀ (rest : List RecognizedLine) (ys : List ℚ) (blocks : List ParagraphBlock)
      (acc : List String) (py : ℚ),
      acc ≠ [] → linesYs rest = some ys →
      groupLoop rest blocks acc (some py) =
        .ok (blocks ++
          (gapSplitGo ((rest.map RecognizedLine.text).zip ys) py acc).map
            fun g => ⟨"paragraph", g⟩) := by
  intro rest
  induction rest with
  | nil =>
    intro ys blocks acc py hacc _
    rw [groupLoop, if_neg (by simpa using hacc)]
    simp [gapSplitGo]
  | cons l rest ih =>
    intro ys blocks acc py hacc hys
    rw [linesYs] at hys
    cases hy : yCoord l.bbox with
    | none => rw [hy] at hys; exact absurd hys (by simp)
    | some y =>
      rw [hy] at hys
      cases hys2 : linesYs rest with
      | none => rw [hys2] at hys; exact absurd hys (by simp)
      | some ys2 =>
        rw [hys2] at hys
        have hys3 : ys = y :: ys2 := by
          simpa using hys.symm
        subst hys3
        simp only [List.map_cons, List.zip_cons_cons, gapSplitGo]
        by_cases hgap : |y - py| > 30
        · have hcond : |y - py| > 30 ∧ acc ≠ [] := ⟨hgap, hacc⟩
          simp only [groupLoop, hy, if_pos hcond, if_pos hgap]
          rw [ih ys2 (blocks ++ [ParagraphBlock.mk "paragraph" acc]) [l.text] y
            (by simp) hys2]
          simp [List.zip]
        · have hcond : ¬(|y - py| > 30 ∧ acc ≠ []) := fun hc => hgap hc.1
          simp only [groupLoop, hy, if_neg hcond, if_neg hgap]
          exact ih ys2 blocks (acc ++ [l.text]) y (by simp) hys2

theorem detectLoop_map_text : ∀ ls : List RecognizedLine,
    detectLoop ls = detectTextsLoop (ls.map RecognizedLine.text)
  | [] => rfl
  | l :: rest => by
    rw [List.map_cons, detectLoop, detectTextsLoop, detectLoop_map_text rest]

theorem check_lines_map_text (zs : List RecognizedLine) :
    (check_lines zs).map RecognizedLine.text =
      windowTexts (zs.map RecognizedLine.text) := by
  rw [check_lines, windowTexts, List.map_append]
  congr 1
  · by_cases h : 0 < zs.length <;> simp [h, List.map_take]
  · by_cases h : 3 < zs.length <;> simp [h, List.map_drop]

/-- Claim C1: for every input whose bounding boxes all have at least 2 points,
`create_formatting_blocks` succeeds and concatenating the `lines` fields of
the returned blocks, in block order, yields exactly the input lines' `text`
fields in original order — nothing dropped, reordered or duplicated. -/
theorem C1_group_preserves_lines (lines : List RecognizedLine)
    (h : ∀ l ∈ lines, 2 ≤ l.bbox.length) :
    ∃ bs, create_formatting_blocks lines = .ok bs ∧
      (bs.map ParagraphBlock.lines).flatten = lines.map RecognizedLine.text := by
  rw [create_formatting_blocks]
  by_cases he : lines.isEmpty
  · have hnil : lines = [] := by simpa using he
    subst hnil
    exact ⟨[], by simp, by simp⟩
  · rw [if_neg he]
    obtain ⟨bs, hbs, hfl⟩ := groupLoop_ok_flatten lines [] [] none h
    exact ⟨bs, hbs, by simpa using hfl⟩

/-- Concrete instantiation of C1 on the five-line example. -/
theorem C1_witness :
    ∃ bs, create_formatting_blocks fiveLines = .ok bs ∧
      (bs.map ParagraphBlock.lines).flatten =
        fiveLines.map RecognizedLine.text :=
  C1_group_preserves_lines fiveLines (by decide)

/-- Claim C2: `detect_page_number` agrees everywhere with the spec's
description — examine the window of the first 3 lines (when at least 1
exists) followed by the last 3 (only when the length exceeds 3) and return
the result for the first candidate whose trimmed text matches the digit or
Roman-numeral pattern, absent when none matches — it returns `none` on the
empty input, and on the 12-line example whose first line is "iv" and last
line is "12" it returns "IV". -/
theorem C2_detect_window_first_match :
    (∀ lines : List RecognizedLine,
      detect_page_number lines = detect_spec lines) ∧
    detect_page_number [] = none ∧
    detect_page_number twelveLines = some "IV" := by
  refine ⟨?_, rfl, by decide⟩
  intro lines
  rw [detect_page_number, detect_spec, detectLoop_eq_findSome]
  congr 1
  rw [check_lines, specWindow]
  congr 1
  by_cases h : lines = [] <;> simp [h, List.length_pos]

/-- Claim C3: on a single candidate line the detector classifies the
whitespace-trimmed text exactly as `specClassify` does — entirely one-or-more
ASCII digits is returned unchanged, otherwise entirely one-or-more letters
from IVXLCDM (case-insensitively) is returned upper-cased, otherwise it is
excluded; in particular the mixed alphanumeric "42a" yields no match. -/
theorem C3_single_candidate (s : String) (conf : ℚ) (bbox : List (ℚ × ℚ)) :
    detect_page_number [⟨s, conf, bbox⟩] = specClassify (pyStripStr s) ∧
    detect_page_number [⟨"42a", conf, bbox⟩] = none := by
  constructor
  · rw [detect_page_number, detectLoop_eq_findSome]
    have hw : check_lines [⟨s, conf, bbox⟩] = [⟨s, conf, bbox⟩] := rfl
    rw [hw]
    simp only [List.findSome?]
    cases specClassify (pyStripStr s) <;> rfl
  · rfl

/-- Claim C4: the vertical position of a line is the arithmetic mean of the
y-coordinates of the bounding box's first two points; the grouping cuts a new
paragraph block exactly where the absolute difference of consecutive vertical
positions strictly exceeds 30 (the `gapSplit` reference grouping); and the
five-line example with positions 0, 5, 10, 100, 105 yields exactly two
blocks, the first three texts then the last two. -/
theorem C4_mean_and_gap_threshold :
    (∀ (p0 p1 : ℚ × ℚ) (rest : List (ℚ × ℚ)),
      yCoord (p0 :: p1 :: rest) = some ((p0.2 + p1.2) / 2)) ∧
    (∀ (lines : List RecognizedLine) (ys : List ℚ),
      linesYs lines = some ys →
      create_formatting_blocks lines =
        .ok ((gapSplit ((lines.map RecognizedLine.text).zip ys)).map
          fun g => ⟨"paragraph", g⟩)) ∧
    create_formatting_blocks fiveLines =
      .ok [⟨"paragraph", ["a", "b", "c"]⟩, ⟨"paragraph", ["d", "e"]⟩] := by
  refine ⟨fun _ _ _ => rfl, ?_, ?_⟩
  · intro lines ys hys
    cases lines with
    | nil =>
      have hnil : ys = [] := by simpa [linesYs] using hys.symm
      subst hnil
      rfl
    | cons l rest =>
      rw [linesYs] at hys
      cases hy : yCoord l.bbox with
      | none => rw [hy] at hys; exact absurd hys (by simp)
      | some y =>
        rw [hy] at hys
        cases hys2 : linesYs rest with
        | none => rw [hys2] at hys; exact absurd hys (by simp)
        | some ys2 =>
          rw [hys2] at hys
          have hys3 : ys = y :: ys2 := by simpa using hys.symm
          subst hys3
          rw [create_formatting_blocks, if_neg (by simp)]
          simp only [List.map_cons, List.zip_cons_cons, gapSplit]
          have step : groupLoop (l :: rest) [] [] none =
              groupLoop rest [] [l.text] (some y) := by
            simp only [groupLoop, hy, List.nil_append]
          rw [step,
            groupLoop_eq_gapSplitGo rest ys2 [] [l.text] y (by simp) hys2]
          simp [List.zip]
  · norm_num [create_formatting_blocks, groupLoop, yCoord, fiveLines, mkLine,
      List.cons_ne_nil]

/-- Concrete instantiation of C4's grouping characterization on the
five-line example. -/
theorem C4_witness :
    create_formatting_blocks fiveLines =
      .ok ((gapSplit ((fiveLines.map RecognizedLine.text).zip
        [0, 5, 10, 100, 105])).map fun g => ⟨"paragraph", g⟩) :=
  C4_mean_and_gap_threshold.2.1 fiveLines [0, 5, 10, 100, 105]
    (by norm_num [linesYs, yCoord, fiveLines, mkLine])

/-- Claim C5, counterexample: `create_formatting_blocks` does signal an
error on a 1-point bounding box, but the reported error is the same generic
out-of-range message whether the violating line is at index 0 or at index 1 —
so the error does not identify which line/index violated the contract, and
the claim as stated is false. -/
theorem C5_counterexample :
    create_formatting_blocks [badBoxLine, mkLine "ok" 0] =
      .error indexErrorMsg ∧
    create_formatting_blocks [mkLine "ok" 0, badBoxLine] =
      .error indexErrorMsg := by
  constructor <;>
    norm_num [create_formatting_blocks, groupLoop, yCoord, badBoxLine, mkLine,
      List.cons_ne_nil, indexErrorMsg]

/-- Claim C5 as amended: for every input containing a line whose bounding
box has fewer than 2 points, `create_formatting_blocks` signals an error
(Python's `IndexError`) rather than returning a result, but the reported
error is a generic out-of-range message that does not identify the violating
line/index. -/
theorem C5_amended_error (lines : List RecognizedLine)
    (h : ∃ l ∈ lines, l.bbox.length < 2) :
    create_formatting_blocks lines = .error indexErrorMsg := by
  obtain ⟨l, hl, hlen⟩ := h
  rw [create_formatting_blocks, if_neg (by
    simp only [List.isEmpty_iff]
    rintro rfl
    simp at hl)]
  exact groupLoop_error lines [] [] none ⟨l, hl, hlen⟩

/-- Concrete instantiation of the amended C5 on a single malformed line. -/
theorem C5_amended_witness :
    create_formatting_blocks [badBoxLine] = .error indexErrorMsg :=
  C5_amended_error [badBoxLine] ⟨badBoxLine, by decide, by decide⟩

/-- Claim C6: on the empty input `detect_page_number` returns `none` and
`create_formatting_blocks` returns the empty block list; neither treats the
empty input as an error. -/
theorem C6_empty_inputs :
    detect_page_number [] = none ∧
    create_formatting_blocks [] = .ok [] :=
  ⟨rfl, rfl⟩

/-- Claim C7: under the interface precondition (every bounding box has at
least 2 points) the grouper returns a defined `ok` result rather than an
error, and the detector returns a defined optional value; both embedded
functions are total Lean functions, so no other run-time failure exists. -/
theorem C7_total_on_valid (lines : List RecognizedLine)
    (h : ∀ l ∈ lines, 2 ≤ l.bbox.length) :
    (∃ bs, create_formatting_blocks lines = .ok bs) ∧
    (detect_page_number lines = none ∨
      ∃ s, detect_page_number lines = some s) := by
  constructor
  · rw [create_formatting_blocks]
    by_cases he : lines.isEmpty
    · exact ⟨[], by rw [if_pos he]⟩
    · rw [if_neg he]
      obtain ⟨bs, hbs, -⟩ := groupLoop_ok_flatten lines [] [] none h
      exact ⟨bs, hbs⟩
  · cases hd : detect_page_number lines with
    | none => exact Or.inl rfl
    | some s => exact Or.inr ⟨s, rfl⟩

/-- Concrete instantiation of C7 on the five-line example. -/
theorem C7_witness :
    (∃ bs, create_formatting_blocks fiveLines = .ok bs) ∧
    (detect_page_number fiveLines = none ∨
      ∃ s, detect_page_number fiveLines = some s) :=
  C7_total_on_valid fiveLines (by decide)

/-- Claim C8: `detect_page_number` and `create_formatting_blocks` are
deterministic — equal inputs give equal outputs.  Both are pure Lean
functions of their argument in this embedding, which is faithful because the
Python bodies only read their argument and build fresh lists, mutating
neither the input nor any global state. -/
theorem C8_deterministic (xs ys : List RecognizedLine) (h : xs = ys) :
    detect_page_number xs = detect_page_number ys ∧
    create_formatting_blocks xs = create_formatting_blocks ys := by
  subst h
  exact ⟨rfl, rfl⟩

/-- Concrete instantiation of C8 on the twelve-line example. -/
theorem C8_witness :
    detect_page_number twelveLines = detect_page_number twelveLines ∧
    create_formatting_blocks twelveLines =
      create_formatting_blocks twelveLines :=
  C8_deterministic twelveLines twelveLines rfl

/-- Claim C9: every block in a successful result of
`create_formatting_blocks` carries the kind tag "paragraph" and a non-empty
`lines` sequence; no empty block is ever emitted. -/
theorem C9_blocks_nonempty_paragraph (lines : List RecognizedLine)
    (bs : List ParagraphBlock) (h : create_formatting_blocks lines = .ok bs) :
    ∀ b ∈ bs, b.type = "paragraph" ∧ b.lines ≠ [] := by
  rw [create_formatting_blocks] at h
  by_cases he : lines.isEmpty
  · rw [if_pos he] at h
    cases h
    simp
  · rw [if_neg he] at h
    exact groupLoop_blocks_inv lines [] [] none bs h (by simp)

/-- Concrete instantiation of C9: the first block of the five-line
example's result. -/
theorem C9_witness :
    (ParagraphBlock.mk "paragraph" ["a", "b", "c"]).type = "paragraph" ∧
    (ParagraphBlock.mk "paragraph" ["a", "b", "c"]).lines ≠ [] :=
  C9_blocks_nonempty_paragraph fiveLines
    [⟨"paragraph", ["a", "b", "c"]⟩, ⟨"paragraph", ["d", "e"]⟩]
    (by norm_num [create_formatting_blocks, groupLoop, yCoord, fiveLines,
      mkLine, List.cons_ne_nil])
    ⟨"paragraph", ["a", "b", "c"]⟩ (by simp)

/-- Claim C10: the detector's result depends only on the `text` fields —
two inputs whose lines have pairwise equal texts give the same result,
whatever their confidences and bounding boxes. -/
theorem C10_detect_reads_only_text (xs ys : List RecognizedLine)
    (h : xs.map RecognizedLine.text = ys.map RecognizedLine.text) :
    detect_page_number xs = detect_page_number ys := by
  have key : ∀ zs : List RecognizedLine,
      detect_page_number zs =
        detectTextsLoop (windowTexts (zs.map RecognizedLine.text)) := by
    intro zs
    rw [detect_page_number, detectLoop_map_text, check_lines_map_text]
  rw [key, key, h]

/-- Concrete instantiation of C10: same text "7", different confidence and
bounding box. -/
theorem C10_witness :
    detect_page_number [⟨"7", 0, []⟩] =
      detect_page_number [⟨"7", 1, [(0, 0), (10, 0)]⟩] :=
  C10_detect_reads_only_text _ _ rfl
